import Mathlib

/-!
Shallow embedding of the work-agent storage engine
(`src/adapters/file/voltagent-memory-adapter.ts`) and the MCP tool
caching of the runtime (`src/runtime/voltagent-runtime.ts`).

The on-disk layout is modelled as association lists keyed by the
structured path components the adapter derives from its arguments:
  * conversation metadata   : (resourceId, conversationId) ↦ Conversation
  * message logs (NDJSON)   : (resourceId, conversationId) ↦ List LogLine
  * conversation-scope WM   : (resourceId, conversationId) ↦ WMPayload
  * legacy flat-layout WM   : (resourceId, conversationId) ↦ LegacyWM
  * user-scope WM           : (resourceId, sanitizeId userId) ↦ WMPayload
  * workflow states         : executionId ↦ WorkflowFile
The two in-memory caches (`conversationCache`, `conversationResourceCache`)
are further association lists.  Timestamps (`new Date().toISOString()`)
are modelled as a `now : Nat` argument threaded into every operation
that reads the clock.
-/

namespace WorkAgent

/-- Association-list lookup (models `Map.get` and `existsSync` on a
keyed file path). -/
def alookup {α β : Type} [DecidableEq α] : List (α × β) → α → Option β
  | [], _ => none
  | (k, v) :: rest, k' => if k = k' then some v else alookup rest k'

/-- Association-list insert-or-replace (models `Map.set` / `writeFile`). -/
def aset {α β : Type} [DecidableEq α] : List (α × β) → α → β → List (α × β)
  | [], k, v => [(k, v)]
  | (k', v') :: rest, k, v =>
      if k' = k then (k, v) :: rest else (k', v') :: aset rest k v

/-- Association-list removal (models `Map.delete` / `unlink`). -/
def aerase {α β : Type} [DecidableEq α] : List (α × β) → α → List (α × β)
  | [], _ => []
  | (k', v') :: rest, k =>
      if k' = k then aerase rest k else (k', v') :: aerase rest k

/-- Source `Conversation` record as stored in `<resourceId>/memory/conversations/<id>.json`.
`metadata : map<string,any>` is modelled with opaque string values;
ISO-8601 timestamps are modelled as naturals. -/
structure Conversation where
  id : String
  resourceId : String
  userId : String
  title : String
  metadata : List (String × String)
  createdAt : Nat
  updatedAt : Nat
deriving DecidableEq, Repr

/-- Source `CreateConversationInput` (`metadata` optional, defaulted with `?? {}`). -/
structure CreateConversationInput where
  id : String
  resourceId : String
  userId : String
  title : String
  metadata : Option (List (String × String))
deriving DecidableEq, Repr

/-- Source `Partial<Omit<Conversation, 'id' | 'createdAt' | 'updatedAt'>>`:
the update payload of `updateConversation`.  A `none` field is a key
absent from the caller's object. -/
structure ConversationUpdate where
  resourceId : Option String
  userId : Option String
  title : Option String
  metadata : Option (List (String × String))
deriving DecidableEq, Repr

/-- Source `UIMessage`: opaque structured payload, at least `{role, content}`. -/
structure UIMessage where
  role : String
  content : String
deriving DecidableEq, Repr

/-- One physical line of a `.ndjson` message log: a well-formed serialized
message, a blank line, or a line `JSON.parse` rejects. -/
inductive LogLine
  | msg (m : UIMessage)
  | blank
  | malformed
deriving DecidableEq, Repr

/-- Working-memory payload `{ content, updatedAt }` as written by
`setWorkingMemory`. -/
structure WMPayload where
  content : String
  updatedAt : Nat
deriving DecidableEq, Repr

/-- Legacy flat-layout working-memory file `{ memory?: string; content?: string }`
read by the backwards-compatibility branch of `getWorkingMemory`. -/
structure LegacyWM where
  memory : Option String
  content : Option String
deriving DecidableEq, Repr

/-- Source `WorkflowStateEntry['status']`. -/
inductive WStatus
  | running
  | suspended
  | completed
  | wfError
deriving DecidableEq, Repr

/-- Source `suspension` sub-object `{checkpoint, suspendedAt}`.  Fields are
`Option`s because at runtime a JS caller may supply a subset of the
fields; well-formed stored entries carry both. -/
structure Suspension where
  checkpoint : Option String
  suspendedAt : Option Nat
deriving DecidableEq, Repr

/-- Source `WorkflowStateEntry`. -/
structure WorkflowStateEntry where
  executionId : String
  workflowId : String
  status : WStatus
  createdAt : Nat
  updatedAt : Nat
  suspension : Option Suspension
deriving DecidableEq, Repr

/-- Source `Partial<WorkflowStateEntry>`: every top-level field optional. -/
structure WorkflowStateUpdate where
  executionId : Option String
  workflowId : Option String
  status : Option WStatus
  createdAt : Option Nat
  updatedAt : Option Nat
  suspension : Option Suspension
deriving DecidableEq, Repr

/-- Content of a `workflows/states/<executionId>.json` file: either a
record `deserializeWorkflowState` accepts, or one that `JSON.parse` /
deserialization rejects (logged and skipped). -/
inductive WorkflowFile
  | ok (e : WorkflowStateEntry)
  | corrupt
deriving DecidableEq, Repr

/-- Source `WorkingMemoryScope`. -/
inductive WorkingMemoryScope
  | conversation
  | user
deriving DecidableEq, Repr

/-- Whole adapter state: the file tree plus the two in-memory caches of
`FileVoltAgentMemoryAdapter`. -/
structure AdapterState where
  convMeta : List ((String × String) × Conversation)
  logs : List ((String × String) × List LogLine)
  convWM : List ((String × String) × WMPayload)
  legacyWM : List ((String × String) × LegacyWM)
  userWM : List ((String × String) × WMPayload)
  wfStates : List (String × WorkflowFile)
  convCache : List (String × Conversation)
  resCache : List (String × String)
deriving DecidableEq, Repr

/-- The adapter over an empty directory tree with cold caches. -/
def emptyState : AdapterState :=
  { convMeta := [], logs := [], convWM := [], legacyWM := [], userWM := [],
    wfStates := [], convCache := [], resCache := [] }

/-- Source `sanitizeId`: `id.replace(/[^a-zA-Z0-9-_]/g, '_')`. -/
def sanitizeChar (c : Char) : Char :=
  if (('a' ≤ c ∧ c ≤ 'z') ∨ ('A' ≤ c ∧ c ≤ 'Z') ∨ ('0' ≤ c ∧ c ≤ '9')
      ∨ c = '-' ∨ c = '_') then c else '_'

/-- File-system safe identifiers for user-scoped working-memory names:
the regex replaces every character outside the class, i.e. maps
`sanitizeChar` over the characters of the id. -/
def sanitizeId (id : String) : String :=
  String.mk (id.data.map sanitizeChar)

/-- Source `extractAgentSlug`: match `/^agent:([^:]+)/` against an optional
userId and return the capture. -/
def extractAgentSlug (userId : Option String) : Option String :=
  match userId with
  | none => none
  | some uid =>
    if List.isPrefixOf "agent:".data uid.data then
      let slug := (uid.data.drop 6).takeWhile (fun c => c != ':')
      if slug.isEmpty then none else some (String.mk slug)
    else none

/-- Source `cacheConversation`: record the conversation and its resource mapping
in both caches. -/
def cacheConversation (s : AdapterState) (c : Conversation) : AdapterState :=
  { s with convCache := aset s.convCache c.id c,
           resCache := aset s.resCache c.id c.resourceId }

/-- Source `findConversationLocation`: try the cached resource id (verifying the
metadata file still exists), then scan every agent directory for a
metadata file named after the conversation. -/
def findConversationLocation (s : AdapterState) (cid : String) : Option String :=
  match alookup s.resCache cid with
  | some r =>
    if (alookup s.convMeta (r, cid)).isSome then some r
    else (s.convMeta.find? (fun p => p.1.2 == cid)).map (fun p => p.1.1)
  | none => (s.convMeta.find? (fun p => p.1.2 == cid)).map (fun p => p.1.1)

/-- Source `loadConversationFromDisk`: serve from the conversation cache, else
locate and read the metadata file, populating both caches on success. -/
def loadConversationFromDisk (s : AdapterState) (cid : String) :
    Option Conversation × AdapterState :=
  match alookup s.convCache cid with
  | some c => (some c, s)
  | none =>
    match findConversationLocation s cid with
    | none => (none, s)
    | some r =>
      match alookup s.convMeta (r, cid) with
      | some c => (some c, cacheConversation s c)
      | none => (none, s)

/-- Source `getConversation` (the `{...conversation}` shallow copy is the same
value). -/
def getConversation (s : AdapterState) (cid : String) :
    Option Conversation × AdapterState :=
  loadConversationFromDisk s cid

/-- Source `persistConversation`: write the metadata file under the
conversation's own `resourceId`/`id` and refresh the caches. -/
def persistConversation (s : AdapterState) (c : Conversation) : AdapterState :=
  cacheConversation
    { s with convMeta := aset s.convMeta (c.resourceId, c.id) c } c

/-- Source `createConversation`: build the record (`metadata ?? {}`, both
timestamps `now`) and persist it. -/
def createConversation (s : AdapterState) (input : CreateConversationInput)
    (now : Nat) : Conversation × AdapterState :=
  let c : Conversation :=
    { id := input.id, resourceId := input.resourceId, userId := input.userId,
      title := input.title, metadata := input.metadata.getD [],
      createdAt := now, updatedAt := now }
  (c, persistConversation s c)

/-- Source `touchConversation`: bump `updatedAt` of an existing conversation;
silently no-op when the conversation does not exist. -/
def touchConversation (s : AdapterState) (cid : String) (now : Nat) :
    AdapterState :=
  let (found, s₁) := getConversation s cid
  match found with
  | none => s₁
  | some c => persistConversation s₁ { c with updatedAt := now }

/-- Source `updateConversation`: throws NotFound when absent; otherwise spreads
the update over the record, restores `resourceId`/`createdAt`, and stamps
`updatedAt` with the current time. -/
def updateConversation (s : AdapterState) (cid : String)
    (u : ConversationUpdate) (now : Nat) :
    Except String Conversation × AdapterState :=
  let (found, s₁) := getConversation s cid
  match found with
  | none => (Except.error ("Conversation " ++ cid ++ " not found"), s₁)
  | some c =>
    let updated : Conversation :=
      { id := c.id,
        resourceId := c.resourceId,
        userId := u.userId.getD c.userId,
        title := u.title.getD c.title,
        metadata := u.metadata.getD c.metadata,
        createdAt := c.createdAt,
        updatedAt := now }
    (Except.ok updated, persistConversation s₁ updated)

/-- Source `deleteConversation`: no-op when absent; otherwise unlink the
metadata file, the message log, and the conversation-scoped working
memory file, and drop the id from both caches.  (The legacy flat-layout
working-memory path is not touched.) -/
def deleteConversation (s : AdapterState) (cid : String) : AdapterState :=
  let (found, s₁) := getConversation s cid
  match found with
  | none => s₁
  | some c =>
    { s₁ with
      convMeta := aerase s₁.convMeta (c.resourceId, cid),
      logs := aerase s₁.logs (c.resourceId, cid),
      convWM := aerase s₁.convWM (c.resourceId, cid),
      convCache := aerase s₁.convCache cid,
      resCache := aerase s₁.resCache cid }

/-- Source `resolveResourceId`: cached mapping, then disk lookup, then the
`agent:<slug>` userId hint, then the literal fallback `"default"`. -/
def resolveResourceId (s : AdapterState) (cid uid : Option String) :
    String × AdapterState :=
  match cid with
  | some c =>
    match alookup s.resCache c with
    | some r => (r, s)
    | none =>
      let (found, s₁) := loadConversationFromDisk s c
      match found with
      | some conv => (conv.resourceId, s₁)
      | none => ((extractAgentSlug uid).getD "default", s₁)
  | none => ((extractAgentSlug uid).getD "default", s)

/-- Source `addMessage`: append one serialized message line to the log file
(created on demand), then touch the conversation. -/
def addMessage (s : AdapterState) (m : UIMessage) (uid cid : String)
    (now : Nat) : AdapterState :=
  let (r, s₁) := resolveResourceId s (some cid) (some uid)
  let old := (alookup s₁.logs (r, cid)).getD []
  let s₂ := { s₁ with logs := aset s₁.logs (r, cid) (old ++ [LogLine.msg m]) }
  touchConversation s₂ cid now

/-- Source `addMessages`: no-op on an empty batch; otherwise append every
message as its own line in one write, then touch the conversation. -/
def addMessages (s : AdapterState) (ms : List UIMessage) (uid cid : String)
    (now : Nat) : AdapterState :=
  match ms with
  | [] => s
  | _ =>
    let (r, s₁) := resolveResourceId s (some cid) (some uid)
    let old := (alookup s₁.logs (r, cid)).getD []
    let s₂ :=
      { s₁ with logs := aset s₁.logs (r, cid) (old ++ ms.map LogLine.msg) }
    touchConversation s₂ cid now

/-- Parse one log line the way the read loop does: skip blank lines,
catch and skip `JSON.parse` failures, keep well-formed messages. -/
def parseLine (l : LogLine) : Option UIMessage :=
  match l with
  | LogLine.msg m => some m
  | LogLine.blank => none
  | LogLine.malformed => none

/-- Apply `GetMessagesOptions.limit` exactly as
`if (options?.limit && messages.length > options.limit) return messages.slice(-options.limit)`:
a missing or zero (falsy) limit returns everything. -/
def applyLimit (limit : Option Nat) (ms : List UIMessage) : List UIMessage :=
  match limit with
  | some k => if k ≠ 0 ∧ ms.length > k then ms.drop (ms.length - k) else ms
  | none => ms

/-- Source `getMessages`: resolve the resource, fall back to a directory scan if
the expected log path does not exist, stream the log skipping blank and
malformed lines, then apply the tail limit. -/
def getMessages (s : AdapterState) (uid cid : String) (limit : Option Nat) :
    List UIMessage × AdapterState :=
  let (r, s₁) := resolveResourceId s (some cid) (some uid)
  match alookup s₁.logs (r, cid) with
  | some lines => (applyLimit limit (lines.filterMap parseLine), s₁)
  | none =>
    match findConversationLocation s₁ cid with
    | none => ([], s₁)
    | some r' =>
      match alookup s₁.logs (r', cid) with
      | none => ([], s₁)
      | some lines => (applyLimit limit (lines.filterMap parseLine), s₁)

/-- Source `getWorkingMemory`: conversation scope reads the scoped file and
falls back to the legacy flat-layout file (`memory ?? content ?? null`);
user scope reads the sanitized user file. -/
def getWorkingMemory (s : AdapterState) (cid uid : Option String)
    (scope : WorkingMemoryScope) : Option String × AdapterState :=
  let (r, s₁) := resolveResourceId s cid uid
  match scope with
  | WorkingMemoryScope.conversation =>
    match cid with
    | none => (none, s₁)
    | some c =>
      match alookup s₁.convWM (r, c) with
      | some p => (some p.content, s₁)
      | none =>
        match alookup s₁.legacyWM (r, c) with
        | none => (none, s₁)
        | some l => ((l.memory).orElse (fun _ => l.content), s₁)
  | WorkingMemoryScope.user =>
    match uid with
    | none => (none, s₁)
    | some u =>
      match alookup s₁.userWM (r, sanitizeId u) with
      | some p => (some p.content, s₁)
      | none => (none, s₁)

/-- Source `setWorkingMemory`: write `{content, updatedAt}` under the scoped
path; throws when the id the scope requires is missing. -/
def setWorkingMemory (s : AdapterState) (cid uid : Option String)
    (content : String) (scope : WorkingMemoryScope) (now : Nat) :
    Except String AdapterState :=
  let (r, s₁) := resolveResourceId s cid uid
  let payload : WMPayload := { content := content, updatedAt := now }
  match scope with
  | WorkingMemoryScope.conversation =>
    match cid with
    | none =>
      Except.error "conversationId is required for conversation-scoped working memory"
    | some c => Except.ok { s₁ with convWM := aset s₁.convWM (r, c) payload }
  | WorkingMemoryScope.user =>
    match uid with
    | none => Except.error "userId is required for user-scoped working memory"
    | some u =>
      Except.ok { s₁ with userWM := aset s₁.userWM (r, sanitizeId u) payload }

/-- Source `getWorkflowState`: read the entry file; a missing file or one the
deserializer rejects yields `null`. -/
def getWorkflowState (s : AdapterState) (eid : String) :
    Option WorkflowStateEntry :=
  match alookup s.wfStates eid with
  | some (WorkflowFile.ok e) => some e
  | some WorkflowFile.corrupt => none
  | none => none

/-- Source `setWorkflowState`: serialize and write the entry file. -/
def setWorkflowState (s : AdapterState) (eid : String)
    (e : WorkflowStateEntry) : AdapterState :=
  { s with wfStates := aset s.wfStates eid (WorkflowFile.ok e) }

/-- Spread `{...existing.suspension, ...updates.suspension}`: a field
present in the update wins, an absent one keeps the stored value. -/
def mergeSuspension (es us : Suspension) : Suspension :=
  { checkpoint := (us.checkpoint).orElse (fun _ => es.checkpoint),
    suspendedAt := (us.suspendedAt).orElse (fun _ => es.suspendedAt) }

/-- Source `updateWorkflowState`: throws NotFound when absent; otherwise spread
the update over the entry, restore `createdAt`, stamp
`updatedAt := updates.updatedAt ?? now`, and — when both the result and
the stored entry carry a suspension — replace it by the field-wise merge
of the stored suspension with the update's suspension. -/
def updateWorkflowState (s : AdapterState) (eid : String)
    (u : WorkflowStateUpdate) (now : Nat) : Except String AdapterState :=
  match getWorkflowState s eid with
  | none => Except.error ("Workflow state " ++ eid ++ " not found")
  | some existing =>
    let merged : WorkflowStateEntry :=
      { executionId := u.executionId.getD existing.executionId,
        workflowId := u.workflowId.getD existing.workflowId,
        status := u.status.getD existing.status,
        createdAt := existing.createdAt,
        updatedAt := u.updatedAt.getD now,
        suspension :=
          match u.suspension with
          | some us => some us
          | none => existing.suspension }
    let final : WorkflowStateEntry :=
      match merged.suspension, existing.suspension with
      | some _, some es =>
        { merged with
          suspension := some (mergeSuspension es (u.suspension.getD ⟨none, none⟩)) }
      | _, _ => merged
    Except.ok (setWorkflowState s eid final)

/-- Source `getSuspendedWorkflowStates`: scan every state file, skip entries
that fail to parse or deserialize, and keep those whose status is
`suspended` with a matching `workflowId`. -/
def getSuspendedWorkflowStates (s : AdapterState) (wid : String) :
    List WorkflowStateEntry :=
  s.wfStates.filterMap (fun p =>
    match p.2 with
    | WorkflowFile.ok e =>
      if e.status = WStatus.suspended ∧ e.workflowId = wid then some e else none
    | WorkflowFile.corrupt => none)

/-- A tool handle discovered over a connection
(`Tool` of the runtime; only the name matters to the claims). -/
structure Tool where
  name : String
deriving DecidableEq, Repr

/-- Modelled from the spec: the external tool-protocol collaborator
(`MCPConfiguration` of `@voltagent/core`, out of scope per §1, contract
in §6: `connect()`, `listTools()`, `disconnect()`).  Constructing it
does not connect; the first `getTools` call connects and discovers the
remote tool list, which is then reused for the connection's lifetime. -/
structure MCPConfiguration where
  serverKey : String
  connected : Bool
  discoveredTools : List Tool
deriving DecidableEq, Repr

/-- Modelled from the spec: `mcpConfig.getTools()` against an external
world `discover` mapping a server key to its remote tool list.  Returns
the tools, the updated connection, and the number of external connect
calls it performed (0 on an established connection, 1 on a fresh one). -/
def MCPConfiguration.getTools (discover : String → List Tool)
    (c : MCPConfiguration) : List Tool × MCPConfiguration × Nat :=
  if c.connected then (c.discoveredTools, c, 0)
  else
    let tools := discover c.serverKey
    (tools, { c with connected := true, discoveredTools := tools }, 1)

/-- The runtime's MCP cache (`mcpConfigs : Map<string, MCPConfiguration>`)
plus a ghost counter of external connect calls. -/
structure RuntimeState where
  mcpConfigs : List (String × MCPConfiguration)
  connectCount : Nat
deriving DecidableEq, Repr

/-- Source `createMCPTools`: key the cache by `` `${agentSlug}:${toolId}` ``;
on a hit return the cached connection's tools; on a miss construct the
configuration, cache it, and fetch (connecting and discovering). -/
def createMCPTools (discover : String → List Tool) (agentSlug toolId : String)
    (st : RuntimeState) : List Tool × RuntimeState :=
  let mcpKey := agentSlug ++ ":" ++ toolId
  match alookup st.mcpConfigs mcpKey with
  | some cfg =>
    let (tools, cfg', n) := cfg.getTools discover
    (tools,
     { st with mcpConfigs := aset st.mcpConfigs mcpKey cfg',
               connectCount := st.connectCount + n })
  | none =>
    let cfg : MCPConfiguration :=
      { serverKey := toolId, connected := false, discoveredTools := [] }
    let (tools, cfg', n) := cfg.getTools discover
    (tools,
     { st with mcpConfigs := aset st.mcpConfigs mcpKey cfg',
               connectCount := st.connectCount + n })

theorem alookup_aset_self {α β : Type} [DecidableEq α]
    (l : List (α × β)) (k : α) (v : β) : alookup (aset l k v) k = some v := by
  induction l with
  | nil => simp [aset, alookup]
  | cons p rest ih =>
    obtain ⟨pk, pv⟩ := p
    by_cases h : pk = k
    · simp [aset, h, alookup]
    · simp [aset, h, alookup, ih]

theorem alookup_aset_ne {α β : Type} [DecidableEq α]
    (l : List (α × β)) (k k' : α) (v : β) (h : k ≠ k') :
    alookup (aset l k v) k' = alookup l k' := by
  induction l with
  | nil => simp [aset, alookup, h]
  | cons p rest ih =>
    obtain ⟨pk, pv⟩ := p
    by_cases hp : pk = k
    · simp [aset, hp, alookup, h]
    · simp [aset, hp, alookup, ih]

theorem alookup_aerase_self {α β : Type} [DecidableEq α]
    (l : List (α × β)) (k : α) : alookup (aerase l k) k = none := by
  induction l with
  | nil => simp [aerase, alookup]
  | cons p rest ih =>
    obtain ⟨pk, pv⟩ := p
    by_cases h : pk = k
    · simpa [aerase, h] using ih
    · simp [aerase, h, alookup, ih]

theorem alookup_aerase_ne {α β : Type} [DecidableEq α]
    (l : List (α × β)) (k k' : α) (h : k ≠ k') :
    alookup (aerase l k) k' = alookup l k' := by
  induction l with
  | nil => simp [aerase, alookup]
  | cons p rest ih =>
    obtain ⟨pk, pv⟩ := p
    by_cases hp : pk = k
    · have hne : ¬ pk = k' := by rw [hp]; exact h
      simp [aerase, hp, alookup, hne, ih, h]
    · simp [aerase, hp, alookup, ih]

theorem mem_of_alookup {α β : Type} [DecidableEq α]
    (l : List (α × β)) (k : α) (v : β) (h : alookup l k = some v) :
    (k, v) ∈ l := by
  induction l with
  | nil => simp [alookup] at h
  | cons p rest ih =>
    obtain ⟨pk, pv⟩ := p
    by_cases hp : pk = k
    · simp [alookup, hp] at h
      subst hp h
      exact List.mem_cons_self _ _
    · simp [alookup, hp] at h
      exact List.mem_cons_of_mem _ (ih h)

theorem alookup_none_of_not_mem {α β : Type} [DecidableEq α]
    (l : List (α × β)) (k : α) (h : ∀ v, (k, v) ∉ l) :
    alookup l k = none := by
  cases h' : alookup l k with
  | none => rfl
  | some v => exact absurd (mem_of_alookup l k v h') (h v)

/-- After erasing the metadata file for `(rid, cid)`, a directory scan
finds no conversation file named `cid`, provided `cid` lived only under
`rid` (Conversation ids are globally unique across resources). -/
theorem find_aerase_none {β : Type}
    (l : List ((String × String) × β)) (rid cid : String)
    (h : ∀ p ∈ l, p.1.2 = cid → p.1.1 = rid) :
    (aerase l (rid, cid)).find? (fun p => p.1.2 == cid) = none := by
  induction l with
  | nil => simp [aerase]
  | cons p rest ih =>
    obtain ⟨⟨pr, pc⟩, pv⟩ := p
    have hrest : ∀ p ∈ rest, p.1.2 = cid → p.1.1 = rid := by
      intro q hq
      exact h q (List.mem_cons_of_mem _ hq)
    by_cases hk : (pr, pc) = (rid, cid)
    · simp [aerase, hk, ih hrest]
    · have hpc : pc ≠ cid := by
        intro hc
        have hpr : pr = rid := h ((pr, pc), pv) (List.mem_cons_self _ _) hc
        exact hk (by rw [hpr, hc])
      simp [aerase, hk, List.find?, hpc, ih hrest]

/-- Erasing the record keyed `(rid, cid)` leaves no record for `cid`
under any resource, provided `cid` lived only under `rid`. -/
theorem alookup_aerase_allkeyed {β : Type}
    (l : List ((String × String) × β)) (rid cid : String)
    (h : ∀ p ∈ l, p.1.2 = cid → p.1.1 = rid) (r' : String) :
    alookup (aerase l (rid, cid)) (r', cid) = none := by
  by_cases hr : r' = rid
  · subst hr
    exact alookup_aerase_self l (r', cid)
  · rw [alookup_aerase_ne l (rid, cid) (r', cid) (by simp [Ne.symm hr])]
    refine alookup_none_of_not_mem _ _ (fun v hv => ?_)
    exact hr (h ((r', cid), v) hv rfl)

/-- A keyed list with no entry for conversation `cid` has no record for
`cid` under any resource. -/
theorem alookup_none_of_no_cid {β : Type}
    (l : List ((String × String) × β)) (cid : String)
    (h : ∀ p ∈ l, p.1.2 ≠ cid) (r' : String) :
    alookup l (r', cid) = none := by
  refine alookup_none_of_not_mem _ _ (fun v hv => ?_)
  exact h ((r', cid), v) hv rfl

/-- When `loadConversationFromDisk` misses, it leaves the state alone. -/
theorem loadConversationFromDisk_none_snd (s : AdapterState) (cid : String)
    (h : (loadConversationFromDisk s cid).1 = none) :
    (loadConversationFromDisk s cid).2 = s := by
  unfold loadConversationFromDisk at h ⊢
  cases hc : alookup s.convCache cid with
  | some c => simp [hc] at h
  | none =>
    cases hf : findConversationLocation s cid with
    | none => simp [hc, hf]
    | some r =>
      cases hm : alookup s.convMeta (r, cid) with
      | none => simp [hc, hf, hm]
      | some c => simp [hc, hf, hm] at h

/-- Source `findConversationLocation` reads only the resource cache and the
metadata files. -/
theorem findConversationLocation_congr (s t : AdapterState) (cid : String)
    (h2 : s.resCache = t.resCache) (h3 : s.convMeta = t.convMeta) :
    findConversationLocation s cid = findConversationLocation t cid := by
  unfold findConversationLocation
  rw [h2, h3]

/-- Source `getConversation` reads only the metadata files and the two caches;
its verdict ignores logs, working memory and workflow state. -/
theorem loadConversationFromDisk_congr (s t : AdapterState) (cid : String)
    (h1 : s.convCache = t.convCache) (h2 : s.resCache = t.resCache)
    (h3 : s.convMeta = t.convMeta) :
    (loadConversationFromDisk s cid).1 = (loadConversationFromDisk t cid).1 := by
  unfold loadConversationFromDisk
  rw [h1, findConversationLocation_congr s t cid h2 h3, h3]
  cases alookup t.convCache cid with
  | some c => rfl
  | none =>
    cases findConversationLocation t cid with
    | none => rfl
    | some r => cases hm : alookup t.convMeta (r, cid) <;> simp [hm]

/-- C1: for every conversation C created via `createConversation`, an
immediately following `getConversation(C.id)` returns a conversation
equal to C (create/get round-trip). -/
theorem createConversation_getConversation_roundtrip
    (s : AdapterState) (input : CreateConversationInput) (now : Nat) :
    (getConversation (createConversation s input now).2
        (createConversation s input now).1.id).1
      = some (createConversation s input now).1 := by
  simp [createConversation, getConversation, loadConversationFromDisk,
    persistConversation, cacheConversation, alookup_aset_self]

/-- C4: `updateConversation` on an existing conversation returns the
record with `id`, `resourceId` and `createdAt` preserved no matter which
fields the payload carries (including a `resourceId` in the payload),
the remaining fields merged payload-first, and `updatedAt` bumped to the
current time. -/
theorem updateConversation_preserves_immutable
    (s : AdapterState) (cid : String) (u : ConversationUpdate) (now : Nat)
    (c : Conversation) (h : (getConversation s cid).1 = some c) :
    (updateConversation s cid u now).1 = Except.ok
      { id := c.id, resourceId := c.resourceId,
        userId := u.userId.getD c.userId, title := u.title.getD c.title,
        metadata := u.metadata.getD c.metadata,
        createdAt := c.createdAt, updatedAt := now } := by
  have hpair : getConversation s cid = (some c, (getConversation s cid).2) := by
    rw [← h]
  unfold updateConversation
  rw [hpair]

/-- Witness for C4 at a freshly created conversation and a payload that
tries to change `resourceId`. -/
theorem updateConversation_preserves_immutable_witness :
    (updateConversation (createConversation emptyState ⟨"c1", "a", "u1", "t", none⟩ 5).2
        "c1" ⟨some "evil", some "u9", some "T2", none⟩ 11).1
      = Except.ok ⟨"c1", "a", "u9", "T2", [], 5, 11⟩ :=
  updateConversation_preserves_immutable
    (createConversation emptyState ⟨"c1", "a", "u1", "t", none⟩ 5).2 "c1"
    ⟨some "evil", some "u9", some "T2", none⟩ 11 ⟨"c1", "a", "u1", "t", [], 5, 5⟩
    (by decide)

/-- C5: `updateConversation` on a conversation id that does not exist
fails with the NotFound error message and leaves the entire adapter
state — files and caches — unchanged. -/
theorem updateConversation_notFound_no_write
    (s : AdapterState) (cid : String) (u : ConversationUpdate) (now : Nat)
    (h : (getConversation s cid).1 = none) :
    (updateConversation s cid u now).1
        = Except.error ("Conversation " ++ cid ++ " not found")
      ∧ (updateConversation s cid u now).2 = s := by
  simp only [getConversation] at h
  have hsnd := loadConversationFromDisk_none_snd s cid h
  have hpair : loadConversationFromDisk s cid = (none, s) :=
    Prod.ext_iff.mpr ⟨h, hsnd⟩
  unfold updateConversation getConversation
  rw [hpair]
  exact ⟨rfl, rfl⟩

/-- Witness for C5: updating the id `"ghost"` in a store holding only
the conversation `"c1"`. -/
theorem updateConversation_notFound_no_write_witness :
    (updateConversation (createConversation emptyState ⟨"c1", "a", "u1", "t", none⟩ 5).2
        "ghost" ⟨none, some "u9", none, none⟩ 11).1
      = Except.error "Conversation ghost not found"
    ∧ (updateConversation (createConversation emptyState ⟨"c1", "a", "u1", "t", none⟩ 5).2
        "ghost" ⟨none, some "u9", none, none⟩ 11).2
      = (createConversation emptyState ⟨"c1", "a", "u1", "t", none⟩ 5).2 :=
  updateConversation_notFound_no_write
    (createConversation emptyState ⟨"c1", "a", "u1", "t", none⟩ 5).2 "ghost"
    ⟨none, some "u9", none, none⟩ 11 (by decide)

/-- C2 counterexample: with one appended message (N = 1) and
`limit = 0 < N`, `getMessages` returns the whole message list rather
than the last zero messages — a limit of 0 is falsy in the guard
`options?.limit && messages.length > options.limit`. -/
theorem getMessages_limit_zero_counterexample :
    0 < 1
    ∧ (getMessages
          (addMessages (createConversation emptyState ⟨"c1", "a", "u1", "t", none⟩ 0).2
            [⟨"user", "hi"⟩] "u1" "c1" 1)
          "u1" "c1" (some 0)).1 = [⟨"user", "hi"⟩]
    ∧ [(⟨"user", "hi"⟩ : UIMessage)] ≠ [] := by decide

/-- C7 counterexample: appending a message for a conversation id with no
metadata record writes the log line but creates no conversation —
`touchConversation` returns early when `getConversation` misses. -/
theorem addMessage_no_create_counterexample :
    (getConversation (addMessage emptyState ⟨"user", "hi"⟩ "u1" "c9" 7) "c9").1 = none
    ∧ (getMessages (addMessage emptyState ⟨"user", "hi"⟩ "u1" "c9" 7) "u1" "c9" none).1
        = [⟨"user", "hi"⟩] := by decide

/-- C3 counterexample: `deleteConversation` does not unlink the legacy
flat-layout working-memory file, so a subsequent conversation-scope
`getWorkingMemory` (here resolving the resource from an
`agent:<slug>:...` userId) still returns the deleted conversation's
note. -/
theorem deleteConversation_legacy_counterexample :
    (getWorkingMemory
        (deleteConversation
          { (createConversation emptyState ⟨"c1", "a", "u1", "t", none⟩ 0).2 with
            legacyWM := [(("a", "c1"), ⟨some "old note", none⟩)] }
          "c1")
        (some "c1") (some "agent:a:user:x") WorkingMemoryScope.conversation).1
      = some "old note" := by decide

/-- C10: the identifier sanitization is not injective — the distinct
userIds `"a.b"` and `"a/b"` sanitize to the same file name, so a
user-scoped `setWorkingMemory` for one is returned by `getWorkingMemory`
for the other. -/
theorem sanitizeId_user_working_memory_alias :
    sanitizeId "a.b" = sanitizeId "a/b"
    ∧ "a.b" ≠ "a/b"
    ∧ (match setWorkingMemory emptyState none (some "a.b") "hello"
          WorkingMemoryScope.user 0 with
       | Except.ok s' =>
          (getWorkingMemory s' none (some "a/b") WorkingMemoryScope.user).1
       | Except.error _ => none) = some "hello" := by decide

/-- C9: resolving the same MCP tool a second time for the same agent
slug without an intervening teardown hits the `(agentSlug, toolId)`
cache: the external connect call count stays at one and the first
connection's discovered tool list is reused. -/
theorem createMCPTools_cache_reuse (discover : String → List Tool)
    (slug tid : String) (st : RuntimeState)
    (h : alookup st.mcpConfigs (slug ++ ":" ++ tid) = none) :
    (createMCPTools discover slug tid st).2.connectCount = st.connectCount + 1
    ∧ (createMCPTools discover slug tid
        (createMCPTools discover slug tid st).2).2.connectCount
        = st.connectCount + 1
    ∧ (createMCPTools discover slug tid
        (createMCPTools discover slug tid st).2).1
        = (createMCPTools discover slug tid st).1 := by
  simp [createMCPTools, h, MCPConfiguration.getTools, alookup_aset_self]

/-- Witness for C9: a cold runtime, one agent, one MCP tool, two builds. -/
theorem createMCPTools_cache_reuse_witness :
    (createMCPTools (fun sk => [⟨sk⟩]) "writer" "files" ⟨[], 0⟩).2.connectCount = 0 + 1
    ∧ (createMCPTools (fun sk => [⟨sk⟩]) "writer" "files"
        (createMCPTools (fun sk => [⟨sk⟩]) "writer" "files" ⟨[], 0⟩).2).2.connectCount
        = 0 + 1
    ∧ (createMCPTools (fun sk => [⟨sk⟩]) "writer" "files"
        (createMCPTools (fun sk => [⟨sk⟩]) "writer" "files" ⟨[], 0⟩).2).1
        = (createMCPTools (fun sk => [⟨sk⟩]) "writer" "files" ⟨[], 0⟩).1 :=
  createMCPTools_cache_reuse (fun sk => [⟨sk⟩]) "writer" "files" ⟨[], 0⟩ rfl

/-- C6: `updateWorkflowState` on an entry whose stored record and update
payload both carry a `suspension` merges field-wise — suspension fields
absent from the payload keep their stored values — while `createdAt` is
preserved and `updatedAt` becomes `updates.updatedAt ?? now`. -/
theorem updateWorkflowState_nested_merge (s : AdapterState) (eid : String)
    (u : WorkflowStateUpdate) (now : Nat) (e : WorkflowStateEntry)
    (es us : Suspension)
    (h : getWorkflowState s eid = some e)
    (hes : e.suspension = some es) (hus : u.suspension = some us) :
    ∃ s', updateWorkflowState s eid u now = Except.ok s'
      ∧ getWorkflowState s' eid = some
          { executionId := u.executionId.getD e.executionId,
            workflowId := u.workflowId.getD e.workflowId,
            status := u.status.getD e.status,
            createdAt := e.createdAt,
            updatedAt := u.updatedAt.getD now,
            suspension := some
              { checkpoint := (us.checkpoint).orElse (fun _ => es.checkpoint),
                suspendedAt := (us.suspendedAt).orElse (fun _ => es.suspendedAt) } } := by
  refine ⟨setWorkflowState s eid
      { executionId := u.executionId.getD e.executionId,
        workflowId := u.workflowId.getD e.workflowId,
        status := u.status.getD e.status,
        createdAt := e.createdAt,
        updatedAt := u.updatedAt.getD now,
        suspension := some
          { checkpoint := (us.checkpoint).orElse (fun _ => es.checkpoint),
            suspendedAt := (us.suspendedAt).orElse (fun _ => es.suspendedAt) } },
    ?_, ?_⟩
  · unfold updateWorkflowState
    rw [h]
    simp [hus, hes, mergeSuspension]
  · unfold getWorkflowState setWorkflowState
    simp [alookup_aset_self]

/-- Witness for C6: a suspended entry updated with a payload whose
suspension carries only `suspendedAt`; the stored checkpoint survives. -/
theorem updateWorkflowState_nested_merge_witness :
    ∃ s', updateWorkflowState
        (setWorkflowState emptyState "e1"
          ⟨"e1", "w1", WStatus.suspended, 1, 2, some ⟨some "cp0", some 10⟩⟩)
        "e1" ⟨none, none, some WStatus.suspended, some 99, none, some ⟨none, some 20⟩⟩ 50
        = Except.ok s'
      ∧ getWorkflowState s' "e1"
          = some ⟨"e1", "w1", WStatus.suspended, 1, 50, some ⟨some "cp0", some 20⟩⟩ :=
  updateWorkflowState_nested_merge
    (setWorkflowState emptyState "e1"
      ⟨"e1", "w1", WStatus.suspended, 1, 2, some ⟨some "cp0", some 10⟩⟩)
    "e1" ⟨none, none, some WStatus.suspended, some 99, none, some ⟨none, some 20⟩⟩ 50
    ⟨"e1", "w1", WStatus.suspended, 1, 2, some ⟨some "cp0", some 10⟩⟩
    ⟨some "cp0", some 10⟩ ⟨none, some 20⟩ (by decide) rfl rfl

/-- Source `filterMap parseLine` restores a log written purely by the append
path. -/
theorem filterMap_parseLine_msgs (ms : List UIMessage) :
    (ms.map LogLine.msg).filterMap parseLine = ms := by
  induction ms with
  | nil => rfl
  | cons m tl ih => simp [parseLine, ih]

/-- When `resolveResourceId` cannot find the conversation, it leaves the
state alone (the fallback is pure). -/
theorem resolveResourceId_miss_snd (s : AdapterState) (cid : String)
    (uid : Option String) (h : (loadConversationFromDisk s cid).1 = none) :
    (resolveResourceId s (some cid) uid).2 = s := by
  have hpair : loadConversationFromDisk s cid = (none, s) :=
    Prod.ext_iff.mpr ⟨h, loadConversationFromDisk_none_snd s cid h⟩
  simp only [resolveResourceId]
  cases hrc : alookup s.resCache cid with
  | some r => rfl
  | none => simp [hrc, hpair]

/-- When the conversation cache already holds the id,
`resolveResourceId` leaves the state alone. -/
theorem resolveResourceId_cached_snd (s : AdapterState) (cid : String)
    (uid : Option String) (conv : Conversation)
    (h : alookup s.convCache cid = some conv) :
    (resolveResourceId s (some cid) uid).2 = s := by
  simp only [resolveResourceId]
  cases hrc : alookup s.resCache cid with
  | some r => rfl
  | none => simp [hrc, loadConversationFromDisk, h]

/-- Touching a missing conversation after a log write is a silent no-op:
`getConversation` still misses. -/
theorem touch_logs_miss (s : AdapterState)
    (L : List ((String × String) × List LogLine)) (cid : String) (now : Nat)
    (h : (loadConversationFromDisk s cid).1 = none) :
    (loadConversationFromDisk (touchConversation { s with logs := L } cid now) cid).1
      = none := by
  have hfst : (loadConversationFromDisk { s with logs := L } cid).1
      = (loadConversationFromDisk s cid).1 :=
    loadConversationFromDisk_congr _ s cid rfl rfl rfl
  have hmiss : (loadConversationFromDisk { s with logs := L } cid).1 = none :=
    hfst.trans h
  have hpair : loadConversationFromDisk { s with logs := L } cid
      = (none, { s with logs := L }) :=
    Prod.ext_iff.mpr ⟨hmiss, loadConversationFromDisk_none_snd _ cid hmiss⟩
  unfold touchConversation getConversation
  rw [hpair]
  exact hmiss

/-- Touching a cached conversation after a log write persists it with
`updatedAt := now`; `getConversation` then returns the bumped record. -/
theorem touch_logs_cached (s : AdapterState)
    (L : List ((String × String) × List LogLine)) (cid : String) (now : Nat)
    (conv : Conversation) (hcc : alookup s.convCache cid = some conv)
    (hid : conv.id = cid) :
    (loadConversationFromDisk (touchConversation { s with logs := L } cid now) cid).1
      = some { conv with updatedAt := now } := by
  have hpair : loadConversationFromDisk { s with logs := L } cid
      = (some conv, { s with logs := L }) := by
    unfold loadConversationFromDisk
    have : ({ s with logs := L } : AdapterState).convCache = s.convCache := rfl
    rw [this, hcc]
  unfold touchConversation getConversation
  rw [hpair]
  unfold persistConversation cacheConversation loadConversationFromDisk
  simp [hid, alookup_aset_self]

/-- C7 (amended): appending a message never creates a conversation
record — when the id has no record the touch is a silent no-op and
`getConversation` still misses afterwards — while for an existing
(cached) conversation every append bumps its `updatedAt` to the append
time. -/
theorem addMessage_no_create_touch_bumps (s : AdapterState) (m : UIMessage)
    (uid cid : String) (now : Nat) :
    ((getConversation s cid).1 = none →
      (getConversation (addMessage s m uid cid now) cid).1 = none)
    ∧ (∀ conv : Conversation, alookup s.convCache cid = some conv →
        conv.id = cid →
        (getConversation (addMessage s m uid cid now) cid).1
          = some { conv with updatedAt := now }) := by
  constructor
  · intro h
    simp only [getConversation] at h ⊢
    have hsnd := resolveResourceId_miss_snd s cid (some uid) h
    unfold addMessage
    rw [show resolveResourceId s (some cid) (some uid)
          = ((resolveResourceId s (some cid) (some uid)).1, s) from
        Prod.ext_iff.mpr ⟨rfl, hsnd⟩]
    exact touch_logs_miss s _ cid now h
  · intro conv hcc hid
    simp only [getConversation]
    have hsnd := resolveResourceId_cached_snd s cid (some uid) conv hcc
    unfold addMessage
    rw [show resolveResourceId s (some cid) (some uid)
          = ((resolveResourceId s (some cid) (some uid)).1, s) from
        Prod.ext_iff.mpr ⟨rfl, hsnd⟩]
    exact touch_logs_cached s _ cid now conv hcc hid

/-- Witness for C7: appending to the existing conversation `"c1"` bumps
its `updatedAt` from 5 to the append time 9. -/
theorem addMessage_no_create_touch_bumps_witness :
    (getConversation
        (addMessage (createConversation emptyState ⟨"c1", "a", "u1", "t", none⟩ 5).2
          ⟨"user", "hi"⟩ "u1" "c1" 9) "c1").1
      = some ⟨"c1", "a", "u1", "t", [], 5, 9⟩ :=
  (addMessage_no_create_touch_bumps
      (createConversation emptyState ⟨"c1", "a", "u1", "t", none⟩ 5).2
      ⟨"user", "hi"⟩ "u1" "c1" 9).2
    ⟨"c1", "a", "u1", "t", [], 5, 5⟩ (by decide) rfl

/-- Reading messages when the resource cache maps the conversation to
the resource whose log file holds `lines`. -/
theorem getMessages_cached_log (s : AdapterState) (r cid uid : String)
    (lines : List LogLine) (limit : Option Nat)
    (h1 : alookup s.resCache cid = some r)
    (h2 : alookup s.logs (r, cid) = some lines) :
    (getMessages s uid cid limit).1
      = applyLimit limit (lines.filterMap parseLine) := by
  simp [getMessages, resolveResourceId, h1, h2]

/-- C8: bulk reads isolate per-record failures: inserting a malformed
line anywhere in a message log leaves `getMessages` unchanged, a log of
well-formed lines is returned in full, and inserting a corrupt workflow
state file anywhere leaves `getSuspendedWorkflowStates` unchanged. -/
theorem bulk_reads_skip_malformed (s : AdapterState) (r cid uid wid kf : String)
    (l₁ l₂ : List LogLine) (ms : List UIMessage)
    (w₁ w₂ : List (String × WorkflowFile))
    (hrc : alookup s.resCache cid = some r) :
    ((getMessages { s with logs := aset s.logs (r, cid) (l₁ ++ LogLine.malformed :: l₂) }
        uid cid none).1
      = (getMessages { s with logs := aset s.logs (r, cid) (l₁ ++ l₂) } uid cid none).1)
    ∧ ((getMessages { s with logs := aset s.logs (r, cid) (ms.map LogLine.msg) }
        uid cid none).1 = ms)
    ∧ (getSuspendedWorkflowStates
        { s with wfStates := w₁ ++ (kf, WorkflowFile.corrupt) :: w₂ } wid
      = getSuspendedWorkflowStates { s with wfStates := w₁ ++ w₂ } wid) := by
  refine ⟨?_, ?_, ?_⟩
  · rw [getMessages_cached_log
        { s with logs := aset s.logs (r, cid) (l₁ ++ LogLine.malformed :: l₂) }
        r cid uid _ none hrc (alookup_aset_self _ _ _),
      getMessages_cached_log
        { s with logs := aset s.logs (r, cid) (l₁ ++ l₂) }
        r cid uid _ none hrc (alookup_aset_self _ _ _)]
    simp [List.filterMap_append, parseLine]
  · rw [getMessages_cached_log
        { s with logs := aset s.logs (r, cid) (ms.map LogLine.msg) }
        r cid uid _ none hrc (alookup_aset_self _ _ _)]
    show (ms.map LogLine.msg).filterMap parseLine = ms
    exact filterMap_parseLine_msgs ms
  · simp [getSuspendedWorkflowStates, List.filterMap_append]

/-- Witness for C8: one good line around a malformed one, and one
corrupt workflow file between two good ones. -/
theorem bulk_reads_skip_malformed_witness :
    ((getMessages { emptyState with
          logs := aset emptyState.logs ("a", "c1")
            ([LogLine.msg ⟨"user", "m1"⟩] ++ LogLine.malformed :: [LogLine.msg ⟨"a", "m2"⟩]),
          resCache := [("c1", "a")] } "u1" "c1" none).1
      = (getMessages { emptyState with
          logs := aset emptyState.logs ("a", "c1")
            ([LogLine.msg ⟨"user", "m1"⟩] ++ [LogLine.msg ⟨"a", "m2"⟩]),
          resCache := [("c1", "a")] } "u1" "c1" none).1)
    ∧ ((getMessages { emptyState with
          logs := aset emptyState.logs ("a", "c1")
            ([⟨"user", "m1"⟩, ⟨"a", "m2"⟩].map LogLine.msg),
          resCache := [("c1", "a")] } "u1" "c1" none).1 = [⟨"user", "m1"⟩, ⟨"a", "m2"⟩])
    ∧ (getSuspendedWorkflowStates { emptyState with
          resCache := [("c1", "a")],
          wfStates := [("e1", WorkflowFile.ok ⟨"e1", "w1", WStatus.suspended, 1, 2, none⟩)]
            ++ ("e2", WorkflowFile.corrupt)
              :: [("e3", WorkflowFile.ok ⟨"e3", "w1", WStatus.running, 1, 2, none⟩)] } "w1"
      = getSuspendedWorkflowStates { emptyState with
          resCache := [("c1", "a")],
          wfStates := [("e1", WorkflowFile.ok ⟨"e1", "w1", WStatus.suspended, 1, 2, none⟩)]
            ++ [("e3", WorkflowFile.ok ⟨"e3", "w1", WStatus.running, 1, 2, none⟩)] } "w1") :=
  bulk_reads_skip_malformed
    { emptyState with resCache := [("c1", "a")] } "a" "c1" "u1" "w1" "e2"
    [LogLine.msg ⟨"user", "m1"⟩] [LogLine.msg ⟨"a", "m2"⟩]
    [⟨"user", "m1"⟩, ⟨"a", "m2"⟩]
    [("e1", WorkflowFile.ok ⟨"e1", "w1", WStatus.suspended, 1, 2, none⟩)]
    [("e3", WorkflowFile.ok ⟨"e3", "w1", WStatus.running, 1, 2, none⟩)]
    rfl

/-- C2 (amended): appending N messages to a conversation whose log file
is empty gives: `getMessages` with no limit returns all N in append
order; with `limit = K` for `1 ≤ K < N` it returns the last K in their
original relative order; with `limit = 0` the guard is falsy and all N
are returned. -/
theorem addMessages_append_order_tail (s : AdapterState) (conv : Conversation)
    (r cid uid : String) (now k : Nat) (ms : List UIMessage)
    (hrc : alookup s.resCache cid = some r)
    (hcc : alookup s.convCache cid = some conv)
    (hid : conv.id = cid) (hres : conv.resourceId = r)
    (hlog : alookup s.logs (r, cid) = none)
    (hk0 : 0 < k) (hkN : k < ms.length) :
    ((getMessages (addMessages s ms uid cid now) uid cid none).1 = ms)
    ∧ ((getMessages (addMessages s ms uid cid now) uid cid (some k)).1
        = ms.drop (ms.length - k))
    ∧ ((getMessages (addMessages s ms uid cid now) uid cid (some 0)).1 = ms) := by
  have hS : addMessages s ms uid cid now
      = { s with
          logs := aset s.logs (r, cid) (ms.map LogLine.msg),
          convMeta := aset s.convMeta (r, cid) { conv with updatedAt := now },
          convCache := aset s.convCache cid { conv with updatedAt := now },
          resCache := aset s.resCache cid r } := by
    cases ms with
    | nil => exact absurd hkN (Nat.not_lt_zero k)
    | cons m tl =>
      simp only [addMessages]
      simp [resolveResourceId, hrc, hlog, touchConversation, getConversation,
        loadConversationFromDisk, persistConversation, cacheConversation,
        hid, hres, hcc]
  have h1 : alookup (addMessages s ms uid cid now).resCache cid = some r := by
    rw [hS]
    exact alookup_aset_self _ _ _
  have h2 : alookup (addMessages s ms uid cid now).logs (r, cid)
      = some (ms.map LogLine.msg) := by
    rw [hS]
    exact alookup_aset_self _ _ _
  refine ⟨?_, ?_, ?_⟩
  · rw [getMessages_cached_log _ r cid uid _ none h1 h2]
    show (ms.map LogLine.msg).filterMap parseLine = ms
    exact filterMap_parseLine_msgs ms
  · rw [getMessages_cached_log _ r cid uid _ (some k) h1 h2]
    rw [show (ms.map LogLine.msg).filterMap parseLine = ms from filterMap_parseLine_msgs ms]
    simp [applyLimit, hkN, Nat.pos_iff_ne_zero.mp hk0]
  · rw [getMessages_cached_log _ r cid uid _ (some 0) h1 h2]
    rw [show (ms.map LogLine.msg).filterMap parseLine = ms from filterMap_parseLine_msgs ms]
    simp [applyLimit]

/-- Witness for C2 (amended): two messages appended, read back with no
limit, `limit = 1` and `limit = 0`. -/
theorem addMessages_append_order_tail_witness :
    ((getMessages
        (addMessages (createConversation emptyState ⟨"c1", "a", "u1", "t", none⟩ 5).2
          [⟨"user", "m1"⟩, ⟨"user", "m2"⟩] "u1" "c1" 9)
        "u1" "c1" none).1 = [⟨"user", "m1"⟩, ⟨"user", "m2"⟩])
    ∧ ((getMessages
        (addMessages (createConversation emptyState ⟨"c1", "a", "u1", "t", none⟩ 5).2
          [⟨"user", "m1"⟩, ⟨"user", "m2"⟩] "u1" "c1" 9)
        "u1" "c1" (some 1)).1
        = ([⟨"user", "m1"⟩, ⟨"user", "m2"⟩] : List UIMessage).drop (2 - 1))
    ∧ ((getMessages
        (addMessages (createConversation emptyState ⟨"c1", "a", "u1", "t", none⟩ 5).2
          [⟨"user", "m1"⟩, ⟨"user", "m2"⟩] "u1" "c1" 9)
        "u1" "c1" (some 0)).1 = [⟨"user", "m1"⟩, ⟨"user", "m2"⟩]) :=
  addMessages_append_order_tail
    (createConversation emptyState ⟨"c1", "a", "u1", "t", none⟩ 5).2
    ⟨"c1", "a", "u1", "t", [], 5, 5⟩ "a" "c1" "u1" 9 1
    [⟨"user", "m1"⟩, ⟨"user", "m2"⟩]
    (by decide) (by decide) rfl rfl rfl (by decide) (by decide)

/-- C3 (amended): deleting an existing conversation removes its metadata
record, its message log and its conversation-scoped working-memory file,
so `getConversation` misses, `getMessages` is empty and
`getWorkingMemory` (conversation scope) is empty for any caller userId —
provided no legacy flat-layout working-memory file exists for the id
(such a file is not removed; see the counterexample). -/
theorem deleteConversation_cascade (s : AdapterState) (conv : Conversation)
    (cid uid : String)
    (hcc : alookup s.convCache cid = some conv)
    (hmeta : ∀ p ∈ s.convMeta, p.1.2 = cid → p.1.1 = conv.resourceId)
    (hlogs : ∀ p ∈ s.logs, p.1.2 = cid → p.1.1 = conv.resourceId)
    (hwm : ∀ p ∈ s.convWM, p.1.2 = cid → p.1.1 = conv.resourceId)
    (hleg : ∀ p ∈ s.legacyWM, p.1.2 ≠ cid) :
    ((getConversation (deleteConversation s cid) cid).1 = none)
    ∧ ((getMessages (deleteConversation s cid) uid cid none).1 = [])
    ∧ ((getWorkingMemory (deleteConversation s cid) (some cid) (some uid)
          WorkingMemoryScope.conversation).1 = none) := by
  have hD : deleteConversation s cid = { s with
      convMeta := aerase s.convMeta (conv.resourceId, cid),
      logs := aerase s.logs (conv.resourceId, cid),
      convWM := aerase s.convWM (conv.resourceId, cid),
      convCache := aerase s.convCache cid,
      resCache := aerase s.resCache cid } := by
    simp [deleteConversation, getConversation, loadConversationFromDisk, hcc]
  rw [hD]
  have hloc : findConversationLocation { s with
      convMeta := aerase s.convMeta (conv.resourceId, cid),
      logs := aerase s.logs (conv.resourceId, cid),
      convWM := aerase s.convWM (conv.resourceId, cid),
      convCache := aerase s.convCache cid,
      resCache := aerase s.resCache cid } cid = none := by
    simp [findConversationLocation, alookup_aerase_self,
      find_aerase_none s.convMeta conv.resourceId cid hmeta]
  have hget1 : (loadConversationFromDisk { s with
      convMeta := aerase s.convMeta (conv.resourceId, cid),
      logs := aerase s.logs (conv.resourceId, cid),
      convWM := aerase s.convWM (conv.resourceId, cid),
      convCache := aerase s.convCache cid,
      resCache := aerase s.resCache cid } cid).1 = none := by
    simp [loadConversationFromDisk, alookup_aerase_self, hloc]
  have hpair : loadConversationFromDisk { s with
      convMeta := aerase s.convMeta (conv.resourceId, cid),
      logs := aerase s.logs (conv.resourceId, cid),
      convWM := aerase s.convWM (conv.resourceId, cid),
      convCache := aerase s.convCache cid,
      resCache := aerase s.resCache cid } cid
      = (none, { s with
          convMeta := aerase s.convMeta (conv.resourceId, cid),
          logs := aerase s.logs (conv.resourceId, cid),
          convWM := aerase s.convWM (conv.resourceId, cid),
          convCache := aerase s.convCache cid,
          resCache := aerase s.resCache cid }) :=
    Prod.ext_iff.mpr ⟨hget1, loadConversationFromDisk_none_snd _ _ hget1⟩
  refine ⟨hget1, ?_, ?_⟩
  · simp [getMessages, resolveResourceId, alookup_aerase_self, hpair, hloc,
      alookup_aerase_allkeyed s.logs conv.resourceId cid hlogs]
  · simp [getWorkingMemory, resolveResourceId, alookup_aerase_self, hpair,
      alookup_aerase_allkeyed s.convWM conv.resourceId cid hwm,
      alookup_none_of_no_cid s.legacyWM cid hleg]

/-- Witness for C3 (amended): a conversation with a log line and a
scoped working-memory note, read back (with an `agent:`-style userId)
after deletion. -/
theorem deleteConversation_cascade_witness :
    ((getConversation (deleteConversation
        { emptyState with
          convMeta := [(("a", "c1"), ⟨"c1", "a", "u1", "t", [], 5, 5⟩)],
          logs := [(("a", "c1"), [LogLine.msg ⟨"user", "hi"⟩])],
          convWM := [(("a", "c1"), ⟨"note", 5⟩)],
          convCache := [("c1", ⟨"c1", "a", "u1", "t", [], 5, 5⟩)],
          resCache := [("c1", "a")] } "c1") "c1").1 = none)
    ∧ ((getMessages (deleteConversation
        { emptyState with
          convMeta := [(("a", "c1"), ⟨"c1", "a", "u1", "t", [], 5, 5⟩)],
          logs := [(("a", "c1"), [LogLine.msg ⟨"user", "hi"⟩])],
          convWM := [(("a", "c1"), ⟨"note", 5⟩)],
          convCache := [("c1", ⟨"c1", "a", "u1", "t", [], 5, 5⟩)],
          resCache := [("c1", "a")] } "c1") "agent:a:user:x" "c1" none).1 = [])
    ∧ ((getWorkingMemory (deleteConversation
        { emptyState with
          convMeta := [(("a", "c1"), ⟨"c1", "a", "u1", "t", [], 5, 5⟩)],
          logs := [(("a", "c1"), [LogLine.msg ⟨"user", "hi"⟩])],
          convWM := [(("a", "c1"), ⟨"note", 5⟩)],
          convCache := [("c1", ⟨"c1", "a", "u1", "t", [], 5, 5⟩)],
          resCache := [("c1", "a")] } "c1")
        (some "c1") (some "agent:a:user:x") WorkingMemoryScope.conversation).1 = none) :=
  deleteConversation_cascade
    { emptyState with
      convMeta := [(("a", "c1"), ⟨"c1", "a", "u1", "t", [], 5, 5⟩)],
      logs := [(("a", "c1"), [LogLine.msg ⟨"user", "hi"⟩])],
      convWM := [(("a", "c1"), ⟨"note", 5⟩)],
      convCache := [("c1", ⟨"c1", "a", "u1", "t", [], 5, 5⟩)],
      resCache := [("c1", "a")] }
    ⟨"c1", "a", "u1", "t", [], 5, 5⟩ "c1" "agent:a:user:x"
    rfl (by decide) (by decide) (by decide) (by decide)

end WorkAgent
